import Mathlib

/-!
Verification of the `ssb-validate2-rsjs-node` binding layer (`src/lib.rs`).

The library orchestrates signature verification, hash-chain validation and
canonical key derivation over batches of Scuttlebutt message values.  The
cryptographic and chain-checking primitives live in external crates
(`ssb-verify-signatures`, `ssb-validate`, `ssb-crypto`); here they appear as
parameters of the orchestration (an `Externals` record) or, where a claim
depends on their input/output contract, as definitions modelled from the spec.

Messages cross the boundary as host strings; the binding converts them to
UTF-8 bytes (`String::into_bytes`) and renders offending messages back with
`std::str::from_utf8`.  Both are modelled explicitly below, so byte sequences
are `List Nat` with every entry a byte value.
-/

/-- The UTF-8 byte sequence of one Unicode scalar value, exactly as produced
by Rust's `String::into_bytes` (standard UTF-8, written with `/` and `%`). -/
def utf8EncodeCharBytes (c : Char) : List Nat :=
  if c.toNat < 0x80 then [c.toNat]
  else if c.toNat < 0x800 then [0xc0 + c.toNat / 0x40, 0x80 + c.toNat % 0x40]
  else if c.toNat < 0x10000 then
    [0xe0 + c.toNat / 0x1000, 0x80 + c.toNat / 0x40 % 0x40, 0x80 + c.toNat % 0x40]
  else
    [0xf0 + c.toNat / 0x40000, 0x80 + c.toNat / 0x1000 % 0x40, 0x80 + c.toNat / 0x40 % 0x40,
      0x80 + c.toNat % 0x40]

/-- Rust's `String::into_bytes`: the UTF-8 encoding of the whole string. -/
def into_bytes (s : String) : List Nat :=
  (s.data.map utf8EncodeCharBytes).flatten

/-- Byte lookup with an out-of-range marker `0x100` (not a byte value), which
fails every continuation-byte range check: this models the slice-bounds
checking of Rust's `std::str::from_utf8`. -/
def byteAt (l : List Nat) (i : Nat) : Nat :=
  l.getD i 0x100

/-- UTF-8 decoding of a byte list into Unicode scalar values, with the
validity checks performed by Rust's `std::str::from_utf8`: continuation
bytes in range, no overlong forms, no surrogates, values below `0x110000`. -/
def utf8DecodeBytes (l : List Nat) : Option (List Char) :=
  match l with
  | [] => some []
  | b0 :: rest =>
    if b0 < 0x80 then
      (utf8DecodeBytes rest).map (fun cs => Char.ofNat b0 :: cs)
    else if 0xc0 ≤ b0 ∧ b0 < 0xe0 then
      if (0x80 ≤ byteAt rest 0 ∧ byteAt rest 0 < 0xc0) ∧
          0x80 ≤ (b0 - 0xc0) * 0x40 + (byteAt rest 0 - 0x80) then
        (utf8DecodeBytes (rest.drop 1)).map
          (fun cs => Char.ofNat ((b0 - 0xc0) * 0x40 + (byteAt rest 0 - 0x80)) :: cs)
      else none
    else if 0xe0 ≤ b0 ∧ b0 < 0xf0 then
      if (0x80 ≤ byteAt rest 0 ∧ byteAt rest 0 < 0xc0) ∧
          (0x80 ≤ byteAt rest 1 ∧ byteAt rest 1 < 0xc0) ∧
          0x800 ≤ (b0 - 0xe0) * 0x1000 + (byteAt rest 0 - 0x80) * 0x40 + (byteAt rest 1 - 0x80) ∧
          ((b0 - 0xe0) * 0x1000 + (byteAt rest 0 - 0x80) * 0x40 + (byteAt rest 1 - 0x80) < 0xd800 ∨
            0xdfff < (b0 - 0xe0) * 0x1000 + (byteAt rest 0 - 0x80) * 0x40 + (byteAt rest 1 - 0x80)) then
        (utf8DecodeBytes (rest.drop 2)).map
          (fun cs =>
            Char.ofNat ((b0 - 0xe0) * 0x1000 + (byteAt rest 0 - 0x80) * 0x40 +
              (byteAt rest 1 - 0x80)) :: cs)
      else none
    else if 0xf0 ≤ b0 ∧ b0 < 0xf8 then
      if (0x80 ≤ byteAt rest 0 ∧ byteAt rest 0 < 0xc0) ∧
          (0x80 ≤ byteAt rest 1 ∧ byteAt rest 1 < 0xc0) ∧
          (0x80 ≤ byteAt rest 2 ∧ byteAt rest 2 < 0xc0) ∧
          0x10000 ≤ (b0 - 0xf0) * 0x40000 + (byteAt rest 0 - 0x80) * 0x1000 +
            (byteAt rest 1 - 0x80) * 0x40 + (byteAt rest 2 - 0x80) ∧
          (b0 - 0xf0) * 0x40000 + (byteAt rest 0 - 0x80) * 0x1000 +
            (byteAt rest 1 - 0x80) * 0x40 + (byteAt rest 2 - 0x80) < 0x110000 then
        (utf8DecodeBytes (rest.drop 3)).map
          (fun cs =>
            Char.ofNat ((b0 - 0xf0) * 0x40000 + (byteAt rest 0 - 0x80) * 0x1000 +
              (byteAt rest 1 - 0x80) * 0x40 + (byteAt rest 2 - 0x80)) :: cs)
      else none
    else none
  termination_by l.length
  decreasing_by
    all_goals simp [List.length_drop]
    all_goals omega

/-- Rust's `std::str::from_utf8` (specialised to producing an owned string):
succeeds exactly on valid UTF-8. -/
def from_utf8 (b : List Nat) : Option String :=
  (utf8DecodeBytes b).map String.mk

theorem utf8DecodeBytes_encodeChar (c : Char) (tail : List Nat) :
    utf8DecodeBytes (utf8EncodeCharBytes c ++ tail) =
      (utf8DecodeBytes tail).map (fun cs => c :: cs) := by
  have hv : c.toNat < 0xd800 ∨ (0xdfff < c.toNat ∧ c.toNat < 0x110000) := c.valid
  by_cases h1 : c.toNat < 0x80
  · have he : utf8EncodeCharBytes c = [c.toNat] := by
      rw [utf8EncodeCharBytes, if_pos h1]
    rw [he, List.cons_append, List.nil_append, utf8DecodeBytes]
    rw [if_pos h1, Char.ofNat_toNat]
  · by_cases h2 : c.toNat < 0x800
    · have he : utf8EncodeCharBytes c = [0xc0 + c.toNat / 0x40, 0x80 + c.toNat % 0x40] := by
        rw [utf8EncodeCharBytes, if_neg h1, if_pos h2]
      rw [he, List.cons_append, List.cons_append, List.nil_append, utf8DecodeBytes]
      simp only [byteAt, List.getD_cons_zero, List.drop_succ_cons, List.drop_zero]
      rw [if_neg (by omega), if_pos (by omega), if_pos (by constructor <;> omega)]
      have hval : (0xc0 + c.toNat / 0x40 - 0xc0) * 0x40 + (0x80 + c.toNat % 0x40 - 0x80) =
          c.toNat := by omega
      rw [hval, Char.ofNat_toNat]
    · by_cases h3 : c.toNat < 0x10000
      · have he : utf8EncodeCharBytes c =
            [0xe0 + c.toNat / 0x1000, 0x80 + c.toNat / 0x40 % 0x40, 0x80 + c.toNat % 0x40] := by
          rw [utf8EncodeCharBytes, if_neg h1, if_neg h2, if_pos h3]
        rw [he, List.cons_append, List.cons_append, List.cons_append, List.nil_append,
          utf8DecodeBytes]
        simp only [byteAt, List.getD_cons_zero, List.getD_cons_succ, List.drop_succ_cons,
          List.drop_zero]
        rw [if_neg (by omega), if_neg (by omega), if_pos (by omega)]
        have hval : (0xe0 + c.toNat / 0x1000 - 0xe0) * 0x1000 +
            (0x80 + c.toNat / 0x40 % 0x40 - 0x80) * 0x40 + (0x80 + c.toNat % 0x40 - 0x80) =
            c.toNat := by omega
        rw [if_pos (by refine ⟨by omega, by omega, ?_, ?_⟩ <;> rw [hval] <;> omega)]
        rw [hval, Char.ofNat_toNat]
      · have he : utf8EncodeCharBytes c =
            [0xf0 + c.toNat / 0x40000, 0x80 + c.toNat / 0x1000 % 0x40,
              0x80 + c.toNat / 0x40 % 0x40, 0x80 + c.toNat % 0x40] := by
          rw [utf8EncodeCharBytes, if_neg h1, if_neg h2, if_neg h3]
        rw [he, List.cons_append, List.cons_append, List.cons_append, List.cons_append,
          List.nil_append, utf8DecodeBytes]
        simp only [byteAt, List.getD_cons_zero, List.getD_cons_succ, List.drop_succ_cons,
          List.drop_zero]
        rw [if_neg (by omega), if_neg (by omega), if_neg (by omega), if_pos (by omega)]
        have hval : (0xf0 + c.toNat / 0x40000 - 0xf0) * 0x40000 +
            (0x80 + c.toNat / 0x1000 % 0x40 - 0x80) * 0x1000 +
            (0x80 + c.toNat / 0x40 % 0x40 - 0x80) * 0x40 + (0x80 + c.toNat % 0x40 - 0x80) =
            c.toNat := by omega
        rw [if_pos (by refine ⟨by omega, by omega, by omega, ?_, ?_⟩ <;> rw [hval] <;> omega)]
        rw [hval, Char.ofNat_toNat]

theorem utf8DecodeBytes_encode_list (cs : List Char) :
    utf8DecodeBytes ((cs.map utf8EncodeCharBytes).flatten) = some cs := by
  induction cs with
  | nil => rw [List.map_nil, List.flatten_nil, utf8DecodeBytes]
  | cons c cs ih =>
    rw [List.map_cons, List.flatten_cons, utf8DecodeBytes_encodeChar, ih, Option.map_some']

/-- `std::str::from_utf8` inverts `String::into_bytes`:
the bytes of a host string always decode back to that string. -/
theorem from_utf8_into_bytes (s : String) : from_utf8 (into_bytes s) = some s := by
  rw [from_utf8, into_bytes, utf8DecodeBytes_encode_list, Option.map_some']

/-- The value of one base64 alphabet character (RFC 4648 standard alphabet). -/
def b64Digit (c : Char) : Option Nat :=
  if 'A' ≤ c ∧ c ≤ 'Z' then some (c.toNat - 'A'.toNat)
  else if 'a' ≤ c ∧ c ≤ 'z' then some (c.toNat - 'a'.toNat + 26)
  else if '0' ≤ c ∧ c ≤ '9' then some (c.toNat - '0'.toNat + 52)
  else if c = '+' then some 62
  else if c = '/' then some 63
  else none

/-- Base64 decoding of a character list, one four-character group at a time,
with `=` padding allowed only in the final group. -/
def base64DecodeGroups : List Char → Option (List Nat)
  | [] => some []
  | c0 :: c1 :: c2 :: c3 :: rest =>
    match b64Digit c0, b64Digit c1 with
    | some d0, some d1 =>
      if c2 = '=' then
        if c3 = '=' ∧ rest = [] then some [d0 * 4 + d1 / 16] else none
      else
        match b64Digit c2 with
        | some d2 =>
          if c3 = '=' then
            if rest = [] then some [d0 * 4 + d1 / 16, d1 % 16 * 16 + d2 / 4] else none
          else
            match b64Digit c3 with
            | some d3 =>
              (base64DecodeGroups rest).map
                (fun bs => (d0 * 4 + d1 / 16) :: (d1 % 16 * 16 + d2 / 4) :: (d2 % 4 * 64 + d3) :: bs)
            | none => none
        | none => none
    | _, _ => none
  | _ => none

/-- Base64 decoding of a string to bytes. -/
def base64Decode (s : String) : Option (List Nat) :=
  base64DecodeGroups s.data

/-- Modelled from the spec: `ssb_crypto::NetworkKey::from_slice` (the
message-signing HMAC key type) is not under `src/`; per the spec a buffer
is "accepted iff exactly 32 bytes". -/
def NetworkKey_from_slice (b : List Nat) : Option (List Nat) :=
  if b.length = 32 then some b else none

/-- Modelled from the spec: `ssb_crypto::NetworkKey::from_base64` is not
under `src/`; per the spec a string "must decode as base64 to exactly
32 bytes". -/
def NetworkKey_from_base64 (s : String) : Option (List Nat) :=
  match base64Decode s with
  | some b => if b.length = 32 then some b else none
  | none => none

/-- The `HmacKey` enum of `src/lib.rs`: a JS `ArrayBuffer` or a JS string. -/
inductive HmacKey where
  | Buf : List Nat → HmacKey
  | Str : String → HmacKey

/-- `is_valid_hmac_key` from `src/lib.rs` (lines 49-78): normalizes the
message-signing HMAC key, with the string `"none"` meaning unkeyed mode. -/
def is_valid_hmac_key : HmacKey → Except String (Option (List Nat))
  | HmacKey.Buf hmac =>
    match NetworkKey_from_slice hmac with
    | none => Except.error "hmac key invalid: byte length must equal 32"
    | some key_val => Except.ok (some key_val)
  | HmacKey.Str hmac =>
    let key := NetworkKey_from_base64 hmac
    if hmac = "none" then Except.ok none
    else
      match key with
      | none => Except.error "hmac key invalid: string must be base64 encoded"
      | some key_val => Except.ok (some key_val)

/-- The external crate entry points used by `src/lib.rs`, as opaque
parameters of the orchestration: parallel and scalar signature verification
(`ssb-verify-signatures`), parallel and scalar hash-chain validation in its
three modes (`ssb-validate`), and multihash key derivation
(`ssb_validate::utils`).  Errors are carried as their rendered text, which is
all the binding uses of them. -/
structure Externals where
  par_verify_message_values : List (List Nat) → Option (List Nat) → Except String Unit
  verify_message_value : List Nat → Option (List Nat) → Except String Unit
  par_validate_message_value_hash_chain_of_feed :
    List (List Nat) → Option (List Nat) → Except String Unit
  validate_message_value_hash_chain : List Nat → Option (List Nat) → Except String Unit
  par_validate_ooo_message_value_hash_chain_of_feed : List (List Nat) → Except String Unit
  validate_ooo_message_value_hash_chain : List Nat → Except String Unit
  par_validate_message_value : List (List Nat) → Except String Unit
  validate_message_value : List Nat → Except String Unit
  multihash_from_bytes_legacy_string : List Nat → String

/-- `Result::is_err` on the scalar checks, as used by the offender scans. -/
def is_err (r : Except String Unit) : Bool :=
  match r with
  | Except.error _ => true
  | Except.ok _ => false

/-- `hash` from `src/lib.rs` (lines 80-88): derive the legacy-encoded
multihash key of every message, preserving order. -/
def hash (E : Externals) (msgs : List (List Nat)) : List String :=
  msgs.map (fun msg => E.multihash_from_bytes_legacy_string msg)

/-- `std::str::from_utf8(...).unwrap_or("unable to convert ...")`: the text of
an offending message, or the fixed fallback diagnostic on invalid UTF-8. -/
def invalid_msg_text (msg : List Nat) : String :=
  match from_utf8 msg with
  | some s => s
  | none => "unable to convert invalid message bytes to string slice; not valid utf8"

/-- `format!("found invalid message: {}: {}", e, invalid_msg_str)`. -/
def found_invalid_message (e invalid_msg_str : String) : String :=
  "found invalid message: " ++ e ++ ": " ++ invalid_msg_str

/-- `verifySignatures` (`verify_messages`, `src/lib.rs` lines 100-133):
signature verification only, no hash-chain check. -/
def verify_messages (E : Externals) (hmac_key : HmacKey) (array : List String) :
    Option String × Option (List String) :=
  match is_valid_hmac_key hmac_key with
  | Except.error err_msg => (some err_msg, none)
  | Except.ok valid_hmac =>
    let msgs := array.map into_bytes
    match E.par_verify_message_values msgs valid_hmac with
    | Except.error e =>
      let invalid_msg := msgs.find? (fun msg => is_err (E.verify_message_value msg valid_hmac))
      let invalid_msg_str :=
        match invalid_msg with
        | some msg => invalid_msg_text msg
        | none => "parallel verification failed but no single invalid message was found"
      (some (found_invalid_message e invalid_msg_str), none)
    | Except.ok _ => (none, some (hash E msgs))

/-- `validateSingle` (`verify_validate_message`, `src/lib.rs` lines 151-194):
scalar signature verification, then scalar hash-chain validation against the
optional previous message, then key derivation. -/
def verify_validate_message (E : Externals) (hmac_key : HmacKey) (msg_value : String)
    (previous : Option String) : Option String × Option String :=
  match is_valid_hmac_key hmac_key with
  | Except.error err_msg => (some err_msg, none)
  | Except.ok valid_hmac =>
    let msg_bytes := into_bytes msg_value
    let previous_msg_bytes := previous.map into_bytes
    match E.verify_message_value msg_bytes valid_hmac with
    | Except.error e =>
      (some (found_invalid_message e (invalid_msg_text msg_bytes)), none)
    | Except.ok _ =>
      match E.validate_message_value_hash_chain msg_bytes previous_msg_bytes with
      | Except.error e =>
        (some (found_invalid_message e (invalid_msg_text msg_bytes)), none)
      | Except.ok _ => (none, some (E.multihash_from_bytes_legacy_string msg_bytes))

/-- `validateBatch` (`verify_validate_messages`, `src/lib.rs` lines 207-264):
parallel signature verification with scalar offender relocation, then
parallel in-order hash-chain validation with scalar offender relocation,
then key derivation. -/
def verify_validate_messages (E : Externals) (hmac_key : HmacKey) (array : List String)
    (previous : Option String) : Option String × Option (List String) :=
  match is_valid_hmac_key hmac_key with
  | Except.error err_msg => (some err_msg, none)
  | Except.ok valid_hmac =>
    let msgs := array.map into_bytes
    let previous_msg := previous.map into_bytes
    match E.par_verify_message_values msgs valid_hmac with
    | Except.error e =>
      let invalid_msg := msgs.find? (fun msg => is_err (E.verify_message_value msg valid_hmac))
      let invalid_msg_str :=
        match invalid_msg with
        | some msg => invalid_msg_text msg
        | none => "parallel verification failed but no single invalid message was found"
      (some (found_invalid_message e invalid_msg_str), none)
    | Except.ok _ =>
      match E.par_validate_message_value_hash_chain_of_feed msgs previous_msg with
      | Except.error e =>
        let invalid_msg :=
          msgs.find? (fun msg => is_err (E.validate_message_value_hash_chain msg previous_msg))
        let invalid_msg_str :=
          match invalid_msg with
          | some msg => invalid_msg_text msg
          | none => "parallel validation failed but no single invalid message was found"
        (some (found_invalid_message e invalid_msg_str), none)
      | Except.ok _ => (none, some (hash E msgs))

/-- `validateOOOBatch` (`verify_validate_out_of_order_messages`, `src/lib.rs`
lines 275-329): parallel signature verification, then parallel out-of-order
hash-chain validation, each with scalar offender relocation, then key
derivation. -/
def verify_validate_out_of_order_messages (E : Externals) (hmac_key : HmacKey)
    (array : List String) : Option String × Option (List String) :=
  match is_valid_hmac_key hmac_key with
  | Except.error err_msg => (some err_msg, none)
  | Except.ok valid_hmac =>
    let msgs := array.map into_bytes
    match E.par_verify_message_values msgs valid_hmac with
    | Except.error e =>
      let invalid_msg := msgs.find? (fun msg => is_err (E.verify_message_value msg valid_hmac))
      let invalid_msg_str :=
        match invalid_msg with
        | some msg => invalid_msg_text msg
        | none => "parallel verification failed but no single invalid message was found"
      (some (found_invalid_message e invalid_msg_str), none)
    | Except.ok _ =>
      match E.par_validate_ooo_message_value_hash_chain_of_feed msgs with
      | Except.error e =>
        let invalid_msg :=
          msgs.find? (fun msg => is_err (E.validate_ooo_message_value_hash_chain msg))
        let invalid_msg_str :=
          match invalid_msg with
          | some msg => invalid_msg_text msg
          | none => "parallel validation failed but no single invalid message was found"
        (some (found_invalid_message e invalid_msg_str), none)
      | Except.ok _ => (none, some (hash E msgs))

/-- `validateMultiAuthorBatch` (`verify_validate_multi_author_messages`,
`src/lib.rs` lines 339-391): parallel signature verification, then parallel
per-message validation, each with scalar offender relocation, then key
derivation. -/
def verify_validate_multi_author_messages (E : Externals) (hmac_key : HmacKey)
    (array : List String) : Option String × Option (List String) :=
  match is_valid_hmac_key hmac_key with
  | Except.error err_msg => (some err_msg, none)
  | Except.ok valid_hmac =>
    let msgs := array.map into_bytes
    match E.par_verify_message_values msgs valid_hmac with
    | Except.error e =>
      let invalid_msg := msgs.find? (fun msg => is_err (E.verify_message_value msg valid_hmac))
      let invalid_msg_str :=
        match invalid_msg with
        | some msg => invalid_msg_text msg
        | none => "parallel verification failed but no single invalid message was found"
      (some (found_invalid_message e invalid_msg_str), none)
    | Except.ok _ =>
      match E.par_validate_message_value msgs with
      | Except.error e =>
        let invalid_msg := msgs.find? (fun msg => is_err (E.validate_message_value msg))
        let invalid_msg_str :=
          match invalid_msg with
          | some msg => invalid_msg_text msg
          | none => "parallel validation failed but no single invalid message was found"
        (some (found_invalid_message e invalid_msg_str), none)
      | Except.ok _ => (none, some (hash E msgs))

/-- Modelled from the spec: the logical chain fields of a message value
(author identity, sequence number, previous-key back-reference) used by the
multi-author hash-chain mode of `ssb-validate`, which is not under `src/`. -/
structure MsgFields where
  author : String
  sequence : Nat
  previous : Option String
  deriving DecidableEq

/-- Lookup of an author's last accepted message in the per-author state. -/
def lookupAuthor (a : String) : List (String × MsgFields) → Option MsgFields
  | [] => none
  | (b, m) :: rest => if a = b then some m else lookupAuthor a rest

/-- Replace (or insert) an author's last accepted message in the state. -/
def updateAuthor (a : String) (m : MsgFields) :
    List (String × MsgFields) → List (String × MsgFields)
  | [] => [(a, m)]
  | (b, m') :: rest => if a = b then (a, m) :: rest else (b, m') :: updateAuthor a m rest

/-- The in-order chain rule continued from a known predecessor: sequence
continuity, previous-key equality, author consistency. -/
def chainFrom (derive : MsgFields → String) (last : MsgFields) : List MsgFields → Bool
  | [] => true
  | m :: rest =>
    if m.sequence = last.sequence + 1 ∧ m.previous = some (derive last) ∧
        m.author = last.author then
      chainFrom derive m rest
    else false

/-- The in-order chain rule re-based at the first message of the list: the
first message is taken as the base, with no external anchor. -/
def chainRebased (derive : MsgFields → String) : List MsgFields → Bool
  | [] => true
  | m :: rest => chainFrom derive m rest

/-- Worker of the multi-author validator: walks the batch once, keeping each
author's last accepted message; an author's first message in the batch is
accepted as that author's base. -/
def validateMultiAuthorGo (derive : MsgFields → String)
    (seen : List (String × MsgFields)) : List MsgFields → Bool
  | [] => true
  | m :: rest =>
    match lookupAuthor m.author seen with
    | none => validateMultiAuthorGo derive (updateAuthor m.author m seen) rest
    | some last =>
      if m.sequence = last.sequence + 1 ∧ m.previous = some (derive last) then
        validateMultiAuthorGo derive (updateAuthor m.author m seen) rest
      else false

/-- Modelled from the spec: the multi-author hash-chain mode "partitions a
mixed-author batch and validates each author's sub-sequence independently
using the in-order rule re-based at each author's first message in the
batch" (the `par_validate_message_value` route of `ssb-validate` is not
under `src/`). -/
def validateMultiAuthor (derive : MsgFields → String) (msgs : List MsgFields) : Bool :=
  validateMultiAuthorGo derive [] msgs

theorem lookupAuthor_updateAuthor (a b : String) (m : MsgFields)
    (seen : List (String × MsgFields)) :
    lookupAuthor a (updateAuthor b m seen) =
      if a = b then some m else lookupAuthor a seen := by
  induction seen with
  | nil => simp only [updateAuthor, lookupAuthor]
  | cons p rest ih =>
    obtain ⟨c, m'⟩ := p
    by_cases hbc : b = c
    · subst hbc
      simp only [updateAuthor, if_pos rfl, lookupAuthor]
      by_cases hab : a = b
      · rw [if_pos hab, if_pos hab]
      · rw [if_neg hab, if_neg hab, if_neg hab]
    · simp only [updateAuthor, if_neg hbc, lookupAuthor]
      by_cases hac : a = c
      · have hab : ¬ a = b := fun h => hbc (h.symm.trans hac)
        rw [if_pos hac, if_neg hab, if_pos hac]
      · rw [if_neg hac, ih, if_neg hac]

/-- Proof scaffolding: the chain check still owed to author `a` after part of
the batch has been consumed into the per-author state `seen`. -/
def authorState (derive : MsgFields → String) (seen : List (String × MsgFields))
    (batch : List MsgFields) (a : String) : Bool :=
  match lookupAuthor a seen with
  | some last => chainFrom derive last (batch.filter (fun m => m.author == a))
  | none => chainRebased derive (batch.filter (fun m => m.author == a))

theorem authorState_nil (derive : MsgFields → String) (seen : List (String × MsgFields))
    (a : String) : authorState derive seen [] a = true := by
  rw [authorState]
  cases lookupAuthor a seen <;> rfl

theorem authorState_nil_seen (derive : MsgFields → String) (batch : List MsgFields)
    (a : String) :
    authorState derive [] batch a = chainRebased derive (batch.filter (fun m => m.author == a)) := by
  rw [authorState, lookupAuthor]

theorem authorState_new (derive : MsgFields → String) {seen : List (String × MsgFields)}
    (m : MsgFields) (batch : List MsgFields) (hm : lookupAuthor m.author seen = none)
    (a : String) :
    authorState derive seen (m :: batch) a =
      authorState derive (updateAuthor m.author m seen) batch a := by
  rw [authorState, authorState, lookupAuthor_updateAuthor]
  by_cases haeq : a = m.author
  · subst haeq
    rw [if_pos rfl, hm]
    show chainRebased derive ((m :: batch).filter (fun x => x.author == m.author)) =
      chainFrom derive m (batch.filter (fun x => x.author == m.author))
    rw [List.filter_cons_of_pos (by simp)]
    rfl
  · rw [if_neg haeq,
      List.filter_cons_of_neg (by simp only [beq_iff_eq]; exact fun h => haeq h.symm)]

theorem authorState_seen_step (derive : MsgFields → String) {seen : List (String × MsgFields)}
    (m last : MsgFields) (batch : List MsgFields)
    (hm : lookupAuthor m.author seen = some last) (hauthor : last.author = m.author)
    (hc : m.sequence = last.sequence + 1 ∧ m.previous = some (derive last)) (a : String) :
    authorState derive seen (m :: batch) a =
      authorState derive (updateAuthor m.author m seen) batch a := by
  rw [authorState, authorState, lookupAuthor_updateAuthor]
  by_cases haeq : a = m.author
  · subst haeq
    rw [if_pos rfl, hm]
    show chainFrom derive last ((m :: batch).filter (fun x => x.author == m.author)) =
      chainFrom derive m (batch.filter (fun x => x.author == m.author))
    rw [List.filter_cons_of_pos (by simp), chainFrom, if_pos ⟨hc.1, hc.2, hauthor.symm⟩]
  · rw [if_neg haeq,
      List.filter_cons_of_neg (by simp only [beq_iff_eq]; exact fun h => haeq h.symm)]

theorem authorState_seen_bad (derive : MsgFields → String) {seen : List (String × MsgFields)}
    (m last : MsgFields) (batch : List MsgFields)
    (hm : lookupAuthor m.author seen = some last)
    (hc : ¬ (m.sequence = last.sequence + 1 ∧ m.previous = some (derive last))) :
    authorState derive seen (m :: batch) m.author = false := by
  rw [authorState, hm]
  show chainFrom derive last ((m :: batch).filter (fun x => x.author == m.author)) = false
  rw [List.filter_cons_of_pos (by simp), chainFrom,
    if_neg (fun hand => hc ⟨hand.1, hand.2.1⟩)]

theorem validateMultiAuthorGo_iff (derive : MsgFields → String) (rest : List MsgFields) :
    ∀ seen : List (String × MsgFields),
      (∀ a last, lookupAuthor a seen = some last → last.author = a) →
      (validateMultiAuthorGo derive seen rest = true ↔
        ∀ a, authorState derive seen rest a = true) := by
  induction rest with
  | nil =>
    intro seen _
    rw [validateMultiAuthorGo]
    constructor
    · intro _ a
      exact authorState_nil derive seen a
    · intro _
      rfl
  | cons m rest ih =>
    intro seen hseen
    have hupd : ∀ a last,
        lookupAuthor a (updateAuthor m.author m seen) = some last → last.author = a := by
      intro a last h
      rw [lookupAuthor_updateAuthor] at h
      by_cases ha : a = m.author
      · rw [if_pos ha] at h
        cases h
        exact ha.symm
      · rw [if_neg ha] at h
        exact hseen a last h
    cases hm : lookupAuthor m.author seen with
    | none =>
      have hgo : validateMultiAuthorGo derive seen (m :: rest) =
          validateMultiAuthorGo derive (updateAuthor m.author m seen) rest := by
        rw [validateMultiAuthorGo, hm]
      rw [hgo, ih (updateAuthor m.author m seen) hupd]
      constructor
      · intro h a
        rw [authorState_new derive m rest hm a]
        exact h a
      · intro h a
        rw [← authorState_new derive m rest hm a]
        exact h a
    | some last =>
      have hauthor : last.author = m.author := hseen m.author last hm
      by_cases hc : m.sequence = last.sequence + 1 ∧ m.previous = some (derive last)
      · have hgo : validateMultiAuthorGo derive seen (m :: rest) =
            validateMultiAuthorGo derive (updateAuthor m.author m seen) rest := by
          rw [validateMultiAuthorGo, hm]
          exact if_pos hc
        rw [hgo, ih (updateAuthor m.author m seen) hupd]
        constructor
        · intro h a
          rw [authorState_seen_step derive m last rest hm hauthor hc a]
          exact h a
        · intro h a
          rw [← authorState_seen_step derive m last rest hm hauthor hc a]
          exact h a
      · have hgo : validateMultiAuthorGo derive seen (m :: rest) = false := by
          rw [validateMultiAuthorGo, hm]
          exact if_neg hc
        rw [hgo]
        simp only [Bool.false_eq_true, false_iff]
        intro h
        have hbad := h m.author
        rw [authorState_seen_bad derive m last rest hm hc] at hbad
        exact Bool.false_ne_true hbad

/-- The multi-author validator accepts a batch exactly when every author's
sub-sequence of the batch satisfies the re-based in-order chain rule. -/
theorem validateMultiAuthor_iff (derive : MsgFields → String) (msgs : List MsgFields) :
    validateMultiAuthor derive msgs = true ↔
      ∀ a, chainRebased derive (msgs.filter (fun m => m.author == a)) = true := by
  rw [validateMultiAuthor, validateMultiAuthorGo_iff derive msgs []
    (fun a last h => by rw [lookupAuthor] at h; cases h)]
  constructor
  · intro h a
    rw [← authorState_nil_seen derive msgs a]
    exact h a
  · intro h a
    rw [authorState_nil_seen derive msgs a]
    exact h a

theorem invalid_msg_text_into_bytes (s : String) : invalid_msg_text (into_bytes s) = s := by
  rw [invalid_msg_text, from_utf8_into_bytes]

theorem hash_eq_map (E : Externals) (msgs : List (List Nat)) :
    hash E msgs = msgs.map E.multihash_from_bytes_legacy_string :=
  rfl

theorem find?_first {α : Type} (p : α → Bool) (l : List α) (k : Nat) (hk : k < l.length)
    (hat : p (l.get ⟨k, hk⟩) = true)
    (hbefore : ∀ j (hj : j < l.length), j < k → p (l.get ⟨j, hj⟩) = false) :
    l.find? p = some (l.get ⟨k, hk⟩) := by
  induction l generalizing k with
  | nil => exact absurd hk (Nat.not_lt_zero k)
  | cons x xs ih =>
    cases k with
    | zero =>
      have hx : p x = true := hat
      rw [List.find?_cons_of_pos _ hx]
      rfl
    | succ k =>
      have hx : p x = false := hbefore 0 (Nat.succ_pos _) (Nat.succ_pos _)
      rw [List.find?_cons_of_neg _ (by rw [hx]; exact Bool.false_ne_true)]
      exact ih k (Nat.lt_of_succ_lt_succ hk) hat
        (fun j hj hjk => hbefore (j + 1) (Nat.succ_lt_succ hj) (Nat.succ_lt_succ hjk))

theorem invalid_msg_text_of_find? (l : List String) (p : List Nat → Bool) (m : List Nat)
    (hfind : (l.map into_bytes).find? p = some m) : invalid_msg_text m ∈ l := by
  have hmem : m ∈ l.map into_bytes := List.mem_of_find?_eq_some hfind
  obtain ⟨s, hs, rfl⟩ := List.mem_map.mp hmem
  rw [invalid_msg_text_into_bytes]
  exact hs

/-- C4: `is_valid_hmac_key` applied to the literal string `"none"` yields
`Ok(None)` (unkeyed mode) on every call — even though `"none"` is itself a
well-formed base64 string, as the second conjunct records. -/
theorem claim_C4_none_sentinel_unkeyed :
    is_valid_hmac_key (HmacKey.Str "none") = Except.ok none ∧
      (base64Decode "none").isSome = true := by
  constructor
  · rfl
  · rfl

/-- C5: a buffer HMAC key is accepted iff it is exactly 32 bytes, otherwise
the `"byte length must equal 32"` key-format error (rendered with the
`"hmac key invalid: "` marker) is returned; a non-`"none"` string is accepted
iff it base64-decodes to exactly 32 bytes, otherwise the
`"string must be base64 encoded"` key-format error is returned. -/
theorem claim_C5_hmac_key_format :
    (∀ b : List Nat,
      (b.length = 32 → is_valid_hmac_key (HmacKey.Buf b) = Except.ok (some b)) ∧
      (b.length ≠ 32 →
        is_valid_hmac_key (HmacKey.Buf b) =
          Except.error "hmac key invalid: byte length must equal 32")) ∧
    (∀ s : String, s ≠ "none" →
      (∀ b : List Nat,
        is_valid_hmac_key (HmacKey.Str s) = Except.ok (some b) ↔
          base64Decode s = some b ∧ b.length = 32) ∧
      ((¬ ∃ b, base64Decode s = some b ∧ b.length = 32) →
        is_valid_hmac_key (HmacKey.Str s) =
          Except.error "hmac key invalid: string must be base64 encoded")) := by
  constructor
  · intro b
    constructor
    · intro h
      simp only [is_valid_hmac_key, NetworkKey_from_slice, if_pos h]
    · intro h
      simp only [is_valid_hmac_key, NetworkKey_from_slice, if_neg h]
  · intro s hs
    constructor
    · intro b
      simp only [is_valid_hmac_key, NetworkKey_from_base64, if_neg hs]
      cases hb : base64Decode s with
      | none => simp
      | some b' =>
        by_cases hlen : b'.length = 32
        · simp only [if_pos hlen, Except.ok.injEq, Option.some.injEq]
          constructor
          · intro h
            exact ⟨by rw [h], by rw [← h]; exact hlen⟩
          · intro h
            cases h.1
            rfl
        · simp only [if_neg hlen]
          constructor
          · intro h
            cases h
          · intro h
            cases h.1
            exact absurd h.2 hlen
    · intro hnone
      simp only [is_valid_hmac_key, NetworkKey_from_base64, if_neg hs]
      cases hb : base64Decode s with
      | none => rfl
      | some b' =>
        by_cases hlen : b'.length = 32
        · exact absurd ⟨b', hb, hlen⟩ hnone
        · simp only [if_neg hlen]

/-- Witness for C5: the 44-character base64 encoding of the 32-byte zero key
is accepted, a 31-byte buffer is rejected with the byte-length error, and a
non-base64 string is rejected with the base64 error. -/
theorem claim_C5_hmac_key_format_witness :
    is_valid_hmac_key
        (HmacKey.Str "AAAAAAAAAAAAAAAAAAAAAAAAAAAAAAAAAAAAAAAAAAA=") =
      Except.ok (some (List.replicate 32 0)) ∧
    is_valid_hmac_key (HmacKey.Buf (List.replicate 31 0)) =
      Except.error "hmac key invalid: byte length must equal 32" ∧
    is_valid_hmac_key (HmacKey.Str "not base64!") =
      Except.error "hmac key invalid: string must be base64 encoded" :=
  ⟨((claim_C5_hmac_key_format.2 "AAAAAAAAAAAAAAAAAAAAAAAAAAAAAAAAAAAAAAAAAAA="
      (by decide)).1 (List.replicate 32 0)).mpr ⟨by rfl, by rfl⟩,
   (claim_C5_hmac_key_format.1 (List.replicate 31 0)).2 (by decide),
   (claim_C5_hmac_key_format.2 "not base64!" (by decide)).2
     (by rintro ⟨b, hb, -⟩; cases (show base64Decode "not base64!" = none from rfl) ▸ hb)⟩

/-- C9: whenever `is_valid_hmac_key` returns `Ok(Some(bytes))`, the byte
vector has length exactly 32, for every buffer or string input. -/
theorem claim_C9_hmac_key_length (hk : HmacKey) (b : List Nat)
    (h : is_valid_hmac_key hk = Except.ok (some b)) : b.length = 32 := by
  cases hk with
  | Buf v =>
    by_cases hlen : v.length = 32
    · simp only [is_valid_hmac_key, NetworkKey_from_slice, if_pos hlen, Except.ok.injEq,
        Option.some.injEq] at h
      rw [← h]
      exact hlen
    · simp only [is_valid_hmac_key, NetworkKey_from_slice, if_neg hlen] at h
      cases h
  | Str s =>
    by_cases hs : s = "none"
    · rw [hs] at h
      simp only [is_valid_hmac_key, if_pos rfl] at h
      cases h
    · simp only [is_valid_hmac_key, NetworkKey_from_base64, if_neg hs] at h
      cases hb : base64Decode s with
      | none =>
        rw [hb] at h
        cases h
      | some b' =>
        rw [hb] at h
        by_cases hlen : b'.length = 32
        · simp only [if_pos hlen, Except.ok.injEq, Option.some.injEq] at h
          rw [← h]
          exact hlen
        · simp only [if_neg hlen] at h
          cases h

/-- Witness for C9: a 32-byte buffer is normalized to a 32-byte key. -/
theorem claim_C9_hmac_key_length_witness : (List.replicate 32 (0 : Nat)).length = 32 :=
  claim_C9_hmac_key_length (HmacKey.Buf (List.replicate 32 0)) (List.replicate 32 0) (by rfl)

/-- A result tuple carries exactly one of the two components: an error with
`None`, or `None` with the success payload. -/
def exclusive_outcome {α : Type} (r : Option String × Option α) : Prop :=
  (r.1.isSome = true ∧ r.2 = none) ∨ (r.1 = none ∧ r.2.isSome = true)

/-- C8: every one of the five operations returns exactly one of the two tuple
components — an error description with `None`, or `None` with the success
payload (a key or list of keys) — never both and never neither, for every
choice of external checkers and inputs. -/
theorem claim_C8_exclusive_outcome (E : Externals) (hk : HmacKey) (array : List String)
    (msg : String) (previous previous2 : Option String) :
    exclusive_outcome (verify_messages E hk array) ∧
    exclusive_outcome (verify_validate_message E hk msg previous) ∧
    exclusive_outcome (verify_validate_messages E hk array previous2) ∧
    exclusive_outcome (verify_validate_out_of_order_messages E hk array) ∧
    exclusive_outcome (verify_validate_multi_author_messages E hk array) := by
  refine ⟨?_, ?_, ?_, ?_, ?_⟩
  · cases hhk : is_valid_hmac_key hk with
    | error e => simp [verify_messages, hhk, exclusive_outcome]
    | ok v =>
      cases hpar : E.par_verify_message_values (array.map into_bytes) v with
      | error e => simp [verify_messages, hhk, hpar, exclusive_outcome]
      | ok u => simp [verify_messages, hhk, hpar, exclusive_outcome]
  · cases hhk : is_valid_hmac_key hk with
    | error e => simp [verify_validate_message, hhk, exclusive_outcome]
    | ok v =>
      cases hver : E.verify_message_value (into_bytes msg) v with
      | error e => simp [verify_validate_message, hhk, hver, exclusive_outcome]
      | ok u =>
        cases hval : E.validate_message_value_hash_chain (into_bytes msg)
            (previous.map into_bytes) with
        | error e => simp [verify_validate_message, hhk, hver, hval, exclusive_outcome]
        | ok u2 => simp [verify_validate_message, hhk, hver, hval, exclusive_outcome]
  · cases hhk : is_valid_hmac_key hk with
    | error e => simp [verify_validate_messages, hhk, exclusive_outcome]
    | ok v =>
      cases hpar : E.par_verify_message_values (array.map into_bytes) v with
      | error e => simp [verify_validate_messages, hhk, hpar, exclusive_outcome]
      | ok u =>
        cases hval : E.par_validate_message_value_hash_chain_of_feed (array.map into_bytes)
            (previous2.map into_bytes) with
        | error e => simp [verify_validate_messages, hhk, hpar, hval, exclusive_outcome]
        | ok u2 => simp [verify_validate_messages, hhk, hpar, hval, exclusive_outcome]
  · cases hhk : is_valid_hmac_key hk with
    | error e => simp [verify_validate_out_of_order_messages, hhk, exclusive_outcome]
    | ok v =>
      cases hpar : E.par_verify_message_values (array.map into_bytes) v with
      | error e => simp [verify_validate_out_of_order_messages, hhk, hpar, exclusive_outcome]
      | ok u =>
        cases hval : E.par_validate_ooo_message_value_hash_chain_of_feed
            (array.map into_bytes) with
        | error e =>
          simp [verify_validate_out_of_order_messages, hhk, hpar, hval, exclusive_outcome]
        | ok u2 =>
          simp [verify_validate_out_of_order_messages, hhk, hpar, hval, exclusive_outcome]
  · cases hhk : is_valid_hmac_key hk with
    | error e => simp [verify_validate_multi_author_messages, hhk, exclusive_outcome]
    | ok v =>
      cases hpar : E.par_verify_message_values (array.map into_bytes) v with
      | error e => simp [verify_validate_multi_author_messages, hhk, hpar, exclusive_outcome]
      | ok u =>
        cases hval : E.par_validate_message_value (array.map into_bytes) with
        | error e =>
          simp [verify_validate_multi_author_messages, hhk, hpar, hval, exclusive_outcome]
        | ok u2 =>
          simp [verify_validate_multi_author_messages, hhk, hpar, hval, exclusive_outcome]

/-- C7: `verifySignatures` performs only signature verification and no
hash-chain check: whenever every message's signature verifies (and the
parallel check agrees with the scalar check), the full ordered key list is
returned with no error — the messages are arbitrary strings, with no
constraint whatsoever on their `sequence`, `previous` or `author` fields. -/
theorem claim_C7_signature_only (E : Externals) (hk : HmacKey) (array : List String)
    (valid_hmac : Option (List Nat))
    (hhk : is_valid_hmac_key hk = Except.ok valid_hmac)
    (hcoh : E.par_verify_message_values (array.map into_bytes) valid_hmac = Except.ok () ↔
      ∀ m ∈ array.map into_bytes, is_err (E.verify_message_value m valid_hmac) = false)
    (hall : ∀ m ∈ array.map into_bytes, is_err (E.verify_message_value m valid_hmac) = false) :
    verify_messages E hk array =
      (none, some ((array.map into_bytes).map E.multihash_from_bytes_legacy_string)) := by
  have hpar := hcoh.mpr hall
  simp only [verify_messages, hhk, hpar, hash_eq_map]

/-- Sample externals for witnesses: every check passes. -/
def extAllOk : Externals where
  par_verify_message_values := fun _ _ => Except.ok ()
  verify_message_value := fun _ _ => Except.ok ()
  par_validate_message_value_hash_chain_of_feed := fun _ _ => Except.ok ()
  validate_message_value_hash_chain := fun _ _ => Except.ok ()
  par_validate_ooo_message_value_hash_chain_of_feed := fun _ => Except.ok ()
  validate_ooo_message_value_hash_chain := fun _ => Except.ok ()
  par_validate_message_value := fun _ => Except.ok ()
  validate_message_value := fun _ => Except.ok ()
  multihash_from_bytes_legacy_string := fun _ => "%key"

/-- Sample externals for witnesses: the parallel signature check fails while
every scalar signature check passes (the attribution anomaly). -/
def extSigAnomaly : Externals where
  par_verify_message_values := fun _ _ => Except.error "sig anomaly"
  verify_message_value := fun _ _ => Except.ok ()
  par_validate_message_value_hash_chain_of_feed := fun _ _ => Except.ok ()
  validate_message_value_hash_chain := fun _ _ => Except.ok ()
  par_validate_ooo_message_value_hash_chain_of_feed := fun _ => Except.ok ()
  validate_ooo_message_value_hash_chain := fun _ => Except.ok ()
  par_validate_message_value := fun _ => Except.ok ()
  validate_message_value := fun _ => Except.ok ()
  multihash_from_bytes_legacy_string := fun _ => "%key"

/-- Sample externals for witnesses: every parallel chain check (in-order,
out-of-order and per-message mode) fails while every scalar chain check
passes (the attribution anomaly, chain phase). -/
def extChainAnomaly : Externals where
  par_verify_message_values := fun _ _ => Except.ok ()
  verify_message_value := fun _ _ => Except.ok ()
  par_validate_message_value_hash_chain_of_feed := fun _ _ => Except.error "chain anomaly"
  validate_message_value_hash_chain := fun _ _ => Except.ok ()
  par_validate_ooo_message_value_hash_chain_of_feed := fun _ => Except.error "chain anomaly"
  validate_ooo_message_value_hash_chain := fun _ => Except.ok ()
  par_validate_message_value := fun _ => Except.error "chain anomaly"
  validate_message_value := fun _ => Except.ok ()
  multihash_from_bytes_legacy_string := fun _ => "%key"

/-- Sample externals for witnesses: the scalar signature check rejects
exactly the message `"bad"`, and the parallel check fails accordingly. -/
def extBadMessage : Externals where
  par_verify_message_values := fun _ _ => Except.error "invalid message"
  verify_message_value := fun msg _ =>
    if msg = into_bytes "bad" then Except.error "bad signature" else Except.ok ()
  par_validate_message_value_hash_chain_of_feed := fun _ _ => Except.ok ()
  validate_message_value_hash_chain := fun _ _ => Except.ok ()
  par_validate_ooo_message_value_hash_chain_of_feed := fun _ => Except.ok ()
  validate_ooo_message_value_hash_chain := fun _ => Except.ok ()
  par_validate_message_value := fun _ => Except.ok ()
  validate_message_value := fun _ => Except.ok ()
  multihash_from_bytes_legacy_string := fun _ => "%key"

/-- C6: when the parallel (aggregate) check fails but the sequential scalar
re-scan finds no individual failing message, every batch operation returns
the distinct "no single invalid message was found" diagnostic inside its
error string, with no success payload — in the signature phase of all four
batch operations, and in the chain phase of `validateBatch`,
`validateOOOBatch` and `validateMultiAuthorBatch`. -/
theorem claim_C6_anomaly_diagnostic (E : Externals) (hk : HmacKey) (array : List String)
    (previous : Option String) (valid_hmac : Option (List Nat))
    (hhk : is_valid_hmac_key hk = Except.ok valid_hmac) :
    (∀ e, E.par_verify_message_values (array.map into_bytes) valid_hmac = Except.error e →
      (∀ m ∈ array.map into_bytes, is_err (E.verify_message_value m valid_hmac) = false) →
      verify_messages E hk array =
        (some (found_invalid_message e
          "parallel verification failed but no single invalid message was found"), none) ∧
      verify_validate_messages E hk array previous =
        (some (found_invalid_message e
          "parallel verification failed but no single invalid message was found"), none) ∧
      verify_validate_out_of_order_messages E hk array =
        (some (found_invalid_message e
          "parallel verification failed but no single invalid message was found"), none) ∧
      verify_validate_multi_author_messages E hk array =
        (some (found_invalid_message e
          "parallel verification failed but no single invalid message was found"), none)) ∧
    (∀ e, E.par_verify_message_values (array.map into_bytes) valid_hmac = Except.ok () →
      E.par_validate_message_value_hash_chain_of_feed (array.map into_bytes)
        (previous.map into_bytes) = Except.error e →
      (∀ m ∈ array.map into_bytes,
        is_err (E.validate_message_value_hash_chain m (previous.map into_bytes)) = false) →
      verify_validate_messages E hk array previous =
        (some (found_invalid_message e
          "parallel validation failed but no single invalid message was found"), none)) ∧
    (∀ e, E.par_verify_message_values (array.map into_bytes) valid_hmac = Except.ok () →
      E.par_validate_ooo_message_value_hash_chain_of_feed (array.map into_bytes) =
        Except.error e →
      (∀ m ∈ array.map into_bytes,
        is_err (E.validate_ooo_message_value_hash_chain m) = false) →
      verify_validate_out_of_order_messages E hk array =
        (some (found_invalid_message e
          "parallel validation failed but no single invalid message was found"), none)) ∧
    (∀ e, E.par_verify_message_values (array.map into_bytes) valid_hmac = Except.ok () →
      E.par_validate_message_value (array.map into_bytes) = Except.error e →
      (∀ m ∈ array.map into_bytes, is_err (E.validate_message_value m) = false) →
      verify_validate_multi_author_messages E hk array =
        (some (found_invalid_message e
          "parallel validation failed but no single invalid message was found"), none)) := by
  refine ⟨?_, ?_, ?_, ?_⟩
  · intro e hpar hall
    have hfind : (array.map into_bytes).find?
        (fun msg => is_err (E.verify_message_value msg valid_hmac)) = none :=
      List.find?_eq_none.mpr (fun x hx => by rw [hall x hx]; exact Bool.false_ne_true)
    refine ⟨?_, ?_, ?_, ?_⟩
    · simp only [verify_messages, hhk, hpar, hfind]
    · simp only [verify_validate_messages, hhk, hpar, hfind]
    · simp only [verify_validate_out_of_order_messages, hhk, hpar, hfind]
    · simp only [verify_validate_multi_author_messages, hhk, hpar, hfind]
  · intro e hpar hval hall
    have hfind : (array.map into_bytes).find?
        (fun msg => is_err (E.validate_message_value_hash_chain msg
          (previous.map into_bytes))) = none :=
      List.find?_eq_none.mpr (fun x hx => by rw [hall x hx]; exact Bool.false_ne_true)
    simp only [verify_validate_messages, hhk, hpar, hval, hfind]
  · intro e hpar hval hall
    have hfind : (array.map into_bytes).find?
        (fun msg => is_err (E.validate_ooo_message_value_hash_chain msg)) = none :=
      List.find?_eq_none.mpr (fun x hx => by rw [hall x hx]; exact Bool.false_ne_true)
    simp only [verify_validate_out_of_order_messages, hhk, hpar, hval, hfind]
  · intro e hpar hval hall
    have hfind : (array.map into_bytes).find?
        (fun msg => is_err (E.validate_message_value msg)) = none :=
      List.find?_eq_none.mpr (fun x hx => by rw [hall x hx]; exact Bool.false_ne_true)
    simp only [verify_validate_multi_author_messages, hhk, hpar, hval, hfind]

/-- Witness for C6: the anomaly externals produce the distinct diagnostic in
the signature phase of all four batch operations and in the chain phase of
the three chain-checking operations. -/
theorem claim_C6_anomaly_diagnostic_witness :
    verify_messages extSigAnomaly (HmacKey.Str "none") ["m"] =
      (some (found_invalid_message "sig anomaly"
        "parallel verification failed but no single invalid message was found"), none) ∧
    verify_validate_messages extSigAnomaly (HmacKey.Str "none") ["m"] none =
      (some (found_invalid_message "sig anomaly"
        "parallel verification failed but no single invalid message was found"), none) ∧
    verify_validate_out_of_order_messages extSigAnomaly (HmacKey.Str "none") ["m"] =
      (some (found_invalid_message "sig anomaly"
        "parallel verification failed but no single invalid message was found"), none) ∧
    verify_validate_multi_author_messages extSigAnomaly (HmacKey.Str "none") ["m"] =
      (some (found_invalid_message "sig anomaly"
        "parallel verification failed but no single invalid message was found"), none) ∧
    verify_validate_messages extChainAnomaly (HmacKey.Str "none") ["m"] none =
      (some (found_invalid_message "chain anomaly"
        "parallel validation failed but no single invalid message was found"), none) ∧
    verify_validate_out_of_order_messages extChainAnomaly (HmacKey.Str "none") ["m"] =
      (some (found_invalid_message "chain anomaly"
        "parallel validation failed but no single invalid message was found"), none) ∧
    verify_validate_multi_author_messages extChainAnomaly (HmacKey.Str "none") ["m"] =
      (some (found_invalid_message "chain anomaly"
        "parallel validation failed but no single invalid message was found"), none) :=
  ⟨((claim_C6_anomaly_diagnostic extSigAnomaly (HmacKey.Str "none") ["m"] none none rfl).1
      "sig anomaly" rfl (fun _ _ => rfl)).1,
   ((claim_C6_anomaly_diagnostic extSigAnomaly (HmacKey.Str "none") ["m"] none none rfl).1
      "sig anomaly" rfl (fun _ _ => rfl)).2.1,
   ((claim_C6_anomaly_diagnostic extSigAnomaly (HmacKey.Str "none") ["m"] none none rfl).1
      "sig anomaly" rfl (fun _ _ => rfl)).2.2.1,
   ((claim_C6_anomaly_diagnostic extSigAnomaly (HmacKey.Str "none") ["m"] none none rfl).1
      "sig anomaly" rfl (fun _ _ => rfl)).2.2.2,
   (claim_C6_anomaly_diagnostic extChainAnomaly (HmacKey.Str "none") ["m"] none none rfl).2.1
      "chain anomaly" rfl rfl (fun _ _ => rfl),
   (claim_C6_anomaly_diagnostic extChainAnomaly (HmacKey.Str "none") ["m"] none none
      rfl).2.2.1 "chain anomaly" rfl rfl (fun _ _ => rfl),
   (claim_C6_anomaly_diagnostic extChainAnomaly (HmacKey.Str "none") ["m"] none none
      rfl).2.2.2 "chain anomaly" rfl rfl (fun _ _ => rfl)⟩

/-- C3: phase ordering of every batch operation.  For `validateBatch`,
`validateOOOBatch` and `validateMultiAuthorBatch`: if parallel signature
verification fails the call terminates with an error and no keys (so the
chain phase and key derivation are never consulted); if it succeeds and the
chain phase fails the call terminates with an error and no keys (so key
derivation is never consulted); if both phases succeed the payload is the
derived key of every message, in input order.  For `verifySignatures` the
same holds with its single signature phase. -/
theorem claim_C3_phase_ordering (E : Externals) (hk : HmacKey) (array : List String)
    (previous : Option String) (valid_hmac : Option (List Nat))
    (hhk : is_valid_hmac_key hk = Except.ok valid_hmac) :
    ((∀ e, E.par_verify_message_values (array.map into_bytes) valid_hmac = Except.error e →
        ∃ err, verify_validate_messages E hk array previous = (some err, none)) ∧
      (∀ e, E.par_verify_message_values (array.map into_bytes) valid_hmac = Except.ok () →
        E.par_validate_message_value_hash_chain_of_feed (array.map into_bytes)
          (previous.map into_bytes) = Except.error e →
        ∃ err, verify_validate_messages E hk array previous = (some err, none)) ∧
      (E.par_verify_message_values (array.map into_bytes) valid_hmac = Except.ok () →
        E.par_validate_message_value_hash_chain_of_feed (array.map into_bytes)
          (previous.map into_bytes) = Except.ok () →
        verify_validate_messages E hk array previous =
          (none, some ((array.map into_bytes).map E.multihash_from_bytes_legacy_string)))) ∧
    ((∀ e, E.par_verify_message_values (array.map into_bytes) valid_hmac = Except.error e →
        ∃ err, verify_validate_out_of_order_messages E hk array = (some err, none)) ∧
      (∀ e, E.par_verify_message_values (array.map into_bytes) valid_hmac = Except.ok () →
        E.par_validate_ooo_message_value_hash_chain_of_feed (array.map into_bytes) =
          Except.error e →
        ∃ err, verify_validate_out_of_order_messages E hk array = (some err, none)) ∧
      (E.par_verify_message_values (array.map into_bytes) valid_hmac = Except.ok () →
        E.par_validate_ooo_message_value_hash_chain_of_feed (array.map into_bytes) =
          Except.ok () →
        verify_validate_out_of_order_messages E hk array =
          (none, some ((array.map into_bytes).map E.multihash_from_bytes_legacy_string)))) ∧
    ((∀ e, E.par_verify_message_values (array.map into_bytes) valid_hmac = Except.error e →
        ∃ err, verify_validate_multi_author_messages E hk array = (some err, none)) ∧
      (∀ e, E.par_verify_message_values (array.map into_bytes) valid_hmac = Except.ok () →
        E.par_validate_message_value (array.map into_bytes) = Except.error e →
        ∃ err, verify_validate_multi_author_messages E hk array = (some err, none)) ∧
      (E.par_verify_message_values (array.map into_bytes) valid_hmac = Except.ok () →
        E.par_validate_message_value (array.map into_bytes) = Except.ok () →
        verify_validate_multi_author_messages E hk array =
          (none, some ((array.map into_bytes).map E.multihash_from_bytes_legacy_string)))) ∧
    ((∀ e, E.par_verify_message_values (array.map into_bytes) valid_hmac = Except.error e →
        ∃ err, verify_messages E hk array = (some err, none)) ∧
      (E.par_verify_message_values (array.map into_bytes) valid_hmac = Except.ok () →
        verify_messages E hk array =
          (none, some ((array.map into_bytes).map E.multihash_from_bytes_legacy_string)))) := by
  refine ⟨⟨?_, ?_, ?_⟩, ⟨?_, ?_, ?_⟩, ⟨?_, ?_, ?_⟩, ?_, ?_⟩
  · intro e hpar
    simp only [verify_validate_messages, hhk, hpar]
    exact ⟨_, rfl⟩
  · intro e hpar hval
    simp only [verify_validate_messages, hhk, hpar, hval]
    exact ⟨_, rfl⟩
  · intro hpar hval
    simp only [verify_validate_messages, hhk, hpar, hval, hash_eq_map]
  · intro e hpar
    simp only [verify_validate_out_of_order_messages, hhk, hpar]
    exact ⟨_, rfl⟩
  · intro e hpar hval
    simp only [verify_validate_out_of_order_messages, hhk, hpar, hval]
    exact ⟨_, rfl⟩
  · intro hpar hval
    simp only [verify_validate_out_of_order_messages, hhk, hpar, hval, hash_eq_map]
  · intro e hpar
    simp only [verify_validate_multi_author_messages, hhk, hpar]
    exact ⟨_, rfl⟩
  · intro e hpar hval
    simp only [verify_validate_multi_author_messages, hhk, hpar, hval]
    exact ⟨_, rfl⟩
  · intro hpar hval
    simp only [verify_validate_multi_author_messages, hhk, hpar, hval, hash_eq_map]
  · intro e hpar
    simp only [verify_messages, hhk, hpar]
    exact ⟨_, rfl⟩
  · intro hpar
    simp only [verify_messages, hhk, hpar, hash_eq_map]

/-- Witness for C3: with all-passing externals every batch operation returns
the ordered key list; with a failing parallel signature check it returns an
error and no keys. -/
theorem claim_C3_phase_ordering_witness :
    verify_validate_messages extAllOk (HmacKey.Str "none") ["a", "b"] none =
      (none, some ["%key", "%key"]) ∧
    verify_validate_out_of_order_messages extAllOk (HmacKey.Str "none") ["a", "b"] =
      (none, some ["%key", "%key"]) ∧
    verify_validate_multi_author_messages extAllOk (HmacKey.Str "none") ["a", "b"] =
      (none, some ["%key", "%key"]) ∧
    verify_messages extAllOk (HmacKey.Str "none") ["a", "b"] =
      (none, some ["%key", "%key"]) ∧
    (∃ err, verify_validate_messages extSigAnomaly (HmacKey.Str "none") ["a"] none =
      (some err, none)) :=
  ⟨(claim_C3_phase_ordering extAllOk (HmacKey.Str "none") ["a", "b"] none none rfl).1.2.2
      rfl rfl,
   (claim_C3_phase_ordering extAllOk (HmacKey.Str "none") ["a", "b"] none none rfl).2.1.2.2
      rfl rfl,
   (claim_C3_phase_ordering extAllOk (HmacKey.Str "none") ["a", "b"] none none rfl).2.2.1.2.2
      rfl rfl,
   (claim_C3_phase_ordering extAllOk (HmacKey.Str "none") ["a", "b"] none none rfl).2.2.2.2
      rfl,
   (claim_C3_phase_ordering extSigAnomaly (HmacKey.Str "none") ["a"] none none rfl).1.1
      "sig anomaly" rfl⟩

/-- Modelled from the spec: the scalar in-order hash-chain rule of
`ssb_validate::validate_message_value_hash_chain` (not under `src/`): with a
predecessor it requires sequence continuity, previous-key equality and
author consistency; with no predecessor it requires `sequence == 1` and the
chain-start sentinel (`previous` empty). -/
def validate_hash_chain_fields (derive : MsgFields → String) (m : MsgFields) :
    Option MsgFields → Except String Unit
  | some prev =>
    if m.sequence = prev.sequence + 1 ∧ m.previous = some (derive prev) ∧
        m.author = prev.author then Except.ok ()
    else Except.error "chain rule violated"
  | none =>
    if m.sequence = 1 ∧ m.previous = none then Except.ok ()
    else Except.error "chain rule violated"

/-- Modelled from the spec: the parallel in-order feed check
(`par_validate_message_value_hash_chain_of_feed`, not under `src/`) applies
the in-order rule message by message along the ordered feed, starting from
the optional supplied predecessor. -/
def validate_feed_fields (derive : MsgFields → String) :
    Option MsgFields → List MsgFields → Except String Unit
  | _, [] => Except.ok ()
  | prev, m :: rest =>
    match validate_hash_chain_fields derive m prev with
    | Except.ok _ => validate_feed_fields derive (some m) rest
    | Except.error e => Except.error e

/-- Key deriver for the counterexample batch. -/
def demoDerive (m : MsgFields) : String :=
  "k" ++ toString m.sequence

/-- Chain fields of the counterexample messages: `"m1"`, `"m2"` form a valid
chain from the feed start; `"m3"` carries a corrupted `previous` field. -/
def demoFields (b : List Nat) : MsgFields :=
  if b = into_bytes "m1" then ⟨"A", 1, none⟩
  else if b = into_bytes "m2" then ⟨"A", 2, some "k1"⟩
  else if b = into_bytes "m3" then ⟨"A", 3, some "CORRUPT"⟩
  else ⟨"A", 0, none⟩

/-- Externals for the counterexample: every signature check passes, and the
chain checks are the spec-modelled in-order rules over the demo fields — so
the scalar re-scan of `validateBatch` checks each message against the
original `previous` argument, exactly as `src/lib.rs` line 250 does. -/
def extStalePrev : Externals where
  par_verify_message_values := fun _ _ => Except.ok ()
  verify_message_value := fun _ _ => Except.ok ()
  par_validate_message_value_hash_chain_of_feed := fun msgs prev =>
    validate_feed_fields demoDerive (prev.map demoFields) (msgs.map demoFields)
  validate_message_value_hash_chain := fun msg prev =>
    validate_hash_chain_fields demoDerive (demoFields msg) (prev.map demoFields)
  par_validate_ooo_message_value_hash_chain_of_feed := fun _ => Except.ok ()
  validate_ooo_message_value_hash_chain := fun _ => Except.ok ()
  par_validate_message_value := fun _ => Except.ok ()
  validate_message_value := fun _ => Except.ok ()
  multihash_from_bytes_legacy_string := fun _ => "%key"

/-- Sample externals for witnesses: the scalar chain checks (in all three
modes) reject exactly the message `"bad"`, the parallel chain checks fail
accordingly, and every signature check passes. -/
def extBadChain : Externals where
  par_verify_message_values := fun _ _ => Except.ok ()
  verify_message_value := fun _ _ => Except.ok ()
  par_validate_message_value_hash_chain_of_feed := fun _ _ => Except.error "invalid chain"
  validate_message_value_hash_chain := fun msg _ =>
    if msg = into_bytes "bad" then Except.error "bad chain" else Except.ok ()
  par_validate_ooo_message_value_hash_chain_of_feed := fun _ => Except.error "invalid chain"
  validate_ooo_message_value_hash_chain := fun msg =>
    if msg = into_bytes "bad" then Except.error "bad chain" else Except.ok ()
  par_validate_message_value := fun _ => Except.error "invalid chain"
  validate_message_value := fun msg =>
    if msg = into_bytes "bad" then Except.error "bad chain" else Except.ok ()
  multihash_from_bytes_legacy_string := fun _ => "%key"

theorem find?_map_into_bytes_first (array : List String) (p : List Nat → Bool) (k : Nat)
    (hk_lt : k < array.length) (hbad : p (into_bytes (array.get ⟨k, hk_lt⟩)) = true)
    (hgood : ∀ j (hj : j < array.length), j < k → p (into_bytes (array.get ⟨j, hj⟩)) = false) :
    (array.map into_bytes).find? p = some (into_bytes (array.get ⟨k, hk_lt⟩)) := by
  have hk_lt' : k < (array.map into_bytes).length := by
    rw [List.length_map]
    exact hk_lt
  have hget : (array.map into_bytes).get ⟨k, hk_lt'⟩ = into_bytes (array.get ⟨k, hk_lt⟩) := by
    simp [List.get_eq_getElem, List.getElem_map]
  rw [← hget]
  apply find?_first
  · rw [hget]
    exact hbad
  · intro j hj hjk
    have hj' : j < array.length := by
      rw [List.length_map] at hj
      exact hj
    have hgetj : (array.map into_bytes).get ⟨j, hj⟩ = into_bytes (array.get ⟨j, hj'⟩) := by
      simp [List.get_eq_getElem, List.getElem_map]
    rw [hgetj]
    exact hgood j hj' hjk

/-- Counterexample to C1 as stated: in the batch `["m1", "m2", "m3"]` with no
supplied predecessor, `"m1"` and `"m2"` form a valid chain from the feed
start (first conjunct) and only `"m3"` is corrupted — its `previous` field
mismatches while its signature passes (second conjunct) — yet
`validateBatch` returns an error quoting the valid adjacent message `"m2"`,
not the corrupted `"m3"` (third conjunct): the chain-phase re-scan checks
every message against the original `previous`, under which `"m2"` (sequence
2 with no predecessor) is the first scalar failure. -/
theorem claim_C1_counterexample :
    validate_feed_fields demoDerive none
      [demoFields (into_bytes "m1"), demoFields (into_bytes "m2")] = Except.ok () ∧
    is_err (validate_hash_chain_fields demoDerive (demoFields (into_bytes "m3"))
      (some (demoFields (into_bytes "m2")))) = true ∧
    verify_validate_messages extStalePrev (HmacKey.Str "none") ["m1", "m2", "m3"] none =
      (some (found_invalid_message "chain rule violated" "m2"), none) := by
  refine ⟨rfl, rfl, ?_⟩
  have hhk : is_valid_hmac_key (HmacKey.Str "none") = Except.ok none := rfl
  have hpar : extStalePrev.par_verify_message_values
      ((["m1", "m2", "m3"] : List String).map into_bytes) none = Except.ok () := rfl
  have hval : extStalePrev.par_validate_message_value_hash_chain_of_feed
      ((["m1", "m2", "m3"] : List String).map into_bytes)
      (Option.map into_bytes none) = Except.error "chain rule violated" := rfl
  have hfind : ((["m1", "m2", "m3"] : List String).map into_bytes).find?
      (fun msg => is_err (extStalePrev.validate_message_value_hash_chain msg
        (Option.map into_bytes none))) = some (into_bytes "m2") := rfl
  simp only [verify_validate_messages, hhk, hpar, hval, hfind, invalid_msg_text_into_bytes]

/-- C1 (amended): offender attribution.  (1) In every batch operation, when
exactly the message at position `k` fails the scalar signature check and the
parallel check fails, the error quotes the text of the message at position
`k` itself.  (2), (3) Likewise for the chain phase of `validateOOOBatch` and
`validateMultiAuthorBatch`, whose scalar re-checks are per-message.  (4) For
the chain phase of `validateBatch` the re-scan checks every message against
the original `previous`, so the error quotes the first message failing that
stale check — which, as `claim_C1_counterexample` shows, need not be the
corrupted message. -/
theorem claim_C1_offender_attribution (E : Externals) (hk : HmacKey) (array : List String)
    (previous : Option String) (valid_hmac : Option (List Nat))
    (hhk : is_valid_hmac_key hk = Except.ok valid_hmac) :
    (∀ k (hk_lt : k < array.length) e,
      is_err (E.verify_message_value (into_bytes (array.get ⟨k, hk_lt⟩)) valid_hmac) =
        true →
      (∀ j (hj : j < array.length), j ≠ k →
        is_err (E.verify_message_value (into_bytes (array.get ⟨j, hj⟩)) valid_hmac) =
          false) →
      E.par_verify_message_values (array.map into_bytes) valid_hmac = Except.error e →
      verify_messages E hk array =
        (some (found_invalid_message e (array.get ⟨k, hk_lt⟩)), none) ∧
      verify_validate_messages E hk array previous =
        (some (found_invalid_message e (array.get ⟨k, hk_lt⟩)), none) ∧
      verify_validate_out_of_order_messages E hk array =
        (some (found_invalid_message e (array.get ⟨k, hk_lt⟩)), none) ∧
      verify_validate_multi_author_messages E hk array =
        (some (found_invalid_message e (array.get ⟨k, hk_lt⟩)), none)) ∧
    (∀ k (hk_lt : k < array.length) e,
      E.par_verify_message_values (array.map into_bytes) valid_hmac = Except.ok () →
      E.par_validate_ooo_message_value_hash_chain_of_feed (array.map into_bytes) =
        Except.error e →
      is_err (E.validate_ooo_message_value_hash_chain
        (into_bytes (array.get ⟨k, hk_lt⟩))) = true →
      (∀ j (hj : j < array.length), j ≠ k →
        is_err (E.validate_ooo_message_value_hash_chain
          (into_bytes (array.get ⟨j, hj⟩))) = false) →
      verify_validate_out_of_order_messages E hk array =
        (some (found_invalid_message e (array.get ⟨k, hk_lt⟩)), none)) ∧
    (∀ k (hk_lt : k < array.length) e,
      E.par_verify_message_values (array.map into_bytes) valid_hmac = Except.ok () →
      E.par_validate_message_value (array.map into_bytes) = Except.error e →
      is_err (E.validate_message_value (into_bytes (array.get ⟨k, hk_lt⟩))) = true →
      (∀ j (hj : j < array.length), j ≠ k →
        is_err (E.validate_message_value (into_bytes (array.get ⟨j, hj⟩))) = false) →
      verify_validate_multi_author_messages E hk array =
        (some (found_invalid_message e (array.get ⟨k, hk_lt⟩)), none)) ∧
    (∀ j (hj_lt : j < array.length) e,
      E.par_verify_message_values (array.map into_bytes) valid_hmac = Except.ok () →
      E.par_validate_message_value_hash_chain_of_feed (array.map into_bytes)
        (previous.map into_bytes) = Except.error e →
      is_err (E.validate_message_value_hash_chain (into_bytes (array.get ⟨j, hj_lt⟩))
        (previous.map into_bytes)) = true →
      (∀ i (hi : i < array.length), i < j →
        is_err (E.validate_message_value_hash_chain (into_bytes (array.get ⟨i, hi⟩))
          (previous.map into_bytes)) = false) →
      verify_validate_messages E hk array previous =
        (some (found_invalid_message e (array.get ⟨j, hj_lt⟩)), none)) := by
  refine ⟨?_, ?_, ?_, ?_⟩
  · intro k hk_lt e hbad hgood hpar
    have hfind := find?_map_into_bytes_first array
      (fun msg => is_err (E.verify_message_value msg valid_hmac)) k hk_lt hbad
      (fun j hj hjk => hgood j hj (Nat.ne_of_lt hjk))
    refine ⟨?_, ?_, ?_, ?_⟩
    · simp only [verify_messages, hhk, hpar, hfind, invalid_msg_text_into_bytes]
    · simp only [verify_validate_messages, hhk, hpar, hfind, invalid_msg_text_into_bytes]
    · simp only [verify_validate_out_of_order_messages, hhk, hpar, hfind,
        invalid_msg_text_into_bytes]
    · simp only [verify_validate_multi_author_messages, hhk, hpar, hfind,
        invalid_msg_text_into_bytes]
  · intro k hk_lt e hpar hval hbad hgood
    have hfind := find?_map_into_bytes_first array
      (fun msg => is_err (E.validate_ooo_message_value_hash_chain msg)) k hk_lt hbad
      (fun j hj hjk => hgood j hj (Nat.ne_of_lt hjk))
    simp only [verify_validate_out_of_order_messages, hhk, hpar, hval, hfind,
      invalid_msg_text_into_bytes]
  · intro k hk_lt e hpar hval hbad hgood
    have hfind := find?_map_into_bytes_first array
      (fun msg => is_err (E.validate_message_value msg)) k hk_lt hbad
      (fun j hj hjk => hgood j hj (Nat.ne_of_lt hjk))
    simp only [verify_validate_multi_author_messages, hhk, hpar, hval, hfind,
      invalid_msg_text_into_bytes]
  · intro j hj_lt e hpar hval hbad hgood
    have hfind := find?_map_into_bytes_first array
      (fun msg => is_err (E.validate_message_value_hash_chain msg
        (previous.map into_bytes))) j hj_lt hbad hgood
    simp only [verify_validate_messages, hhk, hpar, hval, hfind, invalid_msg_text_into_bytes]

/-- Witness for the amended C1: with the scalar signature check rejecting
exactly `"bad"` every operation quotes `"bad"`; with the scalar chain checks
rejecting exactly `"bad"`, the chain phases of the three chain-checking
operations quote `"bad"` as well (for `validateBatch`, `"bad"` is here also
the first failure of the stale-previous re-scan). -/
theorem claim_C1_offender_attribution_witness :
    verify_messages extBadMessage (HmacKey.Str "none") ["good", "bad", "also"] =
      (some (found_invalid_message "invalid message" "bad"), none) ∧
    verify_validate_messages extBadMessage (HmacKey.Str "none") ["good", "bad", "also"] none =
      (some (found_invalid_message "invalid message" "bad"), none) ∧
    verify_validate_out_of_order_messages extBadMessage (HmacKey.Str "none")
        ["good", "bad", "also"] =
      (some (found_invalid_message "invalid message" "bad"), none) ∧
    verify_validate_multi_author_messages extBadMessage (HmacKey.Str "none")
        ["good", "bad", "also"] =
      (some (found_invalid_message "invalid message" "bad"), none) ∧
    verify_validate_out_of_order_messages extBadChain (HmacKey.Str "none") ["good", "bad"] =
      (some (found_invalid_message "invalid chain" "bad"), none) ∧
    verify_validate_multi_author_messages extBadChain (HmacKey.Str "none") ["good", "bad"] =
      (some (found_invalid_message "invalid chain" "bad"), none) ∧
    verify_validate_messages extBadChain (HmacKey.Str "none") ["good", "bad"] none =
      (some (found_invalid_message "invalid chain" "bad"), none) :=
  ⟨((claim_C1_offender_attribution extBadMessage (HmacKey.Str "none") ["good", "bad", "also"]
      none none rfl).1 1 (by decide) "invalid message" (by decide) (by decide) rfl).1,
   ((claim_C1_offender_attribution extBadMessage (HmacKey.Str "none") ["good", "bad", "also"]
      none none rfl).1 1 (by decide) "invalid message" (by decide) (by decide) rfl).2.1,
   ((claim_C1_offender_attribution extBadMessage (HmacKey.Str "none") ["good", "bad", "also"]
      none none rfl).1 1 (by decide) "invalid message" (by decide) (by decide) rfl).2.2.1,
   ((claim_C1_offender_attribution extBadMessage (HmacKey.Str "none") ["good", "bad", "also"]
      none none rfl).1 1 (by decide) "invalid message" (by decide) (by decide) rfl).2.2.2,
   (claim_C1_offender_attribution extBadChain (HmacKey.Str "none") ["good", "bad"]
      none none rfl).2.1 1 (by decide) "invalid chain" rfl rfl (by decide) (by decide),
   (claim_C1_offender_attribution extBadChain (HmacKey.Str "none") ["good", "bad"]
      none none rfl).2.2.1 1 (by decide) "invalid chain" rfl rfl (by decide) (by decide),
   (claim_C1_offender_attribution extBadChain (HmacKey.Str "none") ["good", "bad"]
      none none rfl).2.2.2 1 (by decide) "invalid chain" rfl rfl (by decide) (by decide)⟩

/-- C10: the fixed fallback diagnostic for invalid UTF-8 is unreachable:
message bytes come from host strings through `into_bytes`, and such bytes
always convert back to the original text, so an error that quotes an
offending message always embeds that message's actual text (second conjunct:
whatever the offender scan finds among encoded host strings, the quoted text
is one of the original messages). -/
theorem claim_C10_utf8_fallback_unreachable :
    (∀ s : String, invalid_msg_text (into_bytes s) = s ∧
      from_utf8 (into_bytes s) = some s) ∧
    (∀ (l : List String) (p : List Nat → Bool) (m : List Nat),
      (l.map into_bytes).find? p = some m → invalid_msg_text m ∈ l) :=
  ⟨fun s => ⟨invalid_msg_text_into_bytes s, from_utf8_into_bytes s⟩,
   invalid_msg_text_of_find?⟩

/-- Witness for C10: concrete instances of the round trip and of offender
quoting, including a multi-byte (non-ASCII) message. -/
theorem claim_C10_utf8_fallback_unreachable_witness :
    invalid_msg_text (into_bytes "héllo wörld") = "héllo wörld" ∧
    invalid_msg_text (into_bytes "bad") ∈ ["good", "bad"] :=
  ⟨(claim_C10_utf8_fallback_unreachable.1 "héllo wörld").1,
   claim_C10_utf8_fallback_unreachable.2 ["good", "bad"]
     (fun msg => decide (msg = into_bytes "bad")) (into_bytes "bad") (by decide)⟩

/-- C2: `validateMultiAuthorBatch`'s chain mode partitions a batch by author
and validates each author's sub-sequence independently under the in-order
chain rule re-based at that author's first message in the batch (first
conjunct, for every batch); in particular a batch interleaving two authors'
valid two-message chains succeeds (second conjunct). -/
theorem claim_C2_multi_author_partition (derive : MsgFields → String)
    (a1 a2 b1 b2 : MsgFields)
    (hA : a2.author = a1.author) (hB : b2.author = b1.author)
    (hAB : a1.author ≠ b1.author)
    (ha_seq : a2.sequence = a1.sequence + 1) (ha_prev : a2.previous = some (derive a1))
    (hb_seq : b2.sequence = b1.sequence + 1) (hb_prev : b2.previous = some (derive b1)) :
    (∀ msgs : List MsgFields, validateMultiAuthor derive msgs = true ↔
      ∀ a, chainRebased derive (msgs.filter (fun m => m.author == a)) = true) ∧
    validateMultiAuthor derive [a1, b1, a2, b2] = true := by
  refine ⟨validateMultiAuthor_iff derive, ?_⟩
  rw [validateMultiAuthor_iff]
  intro a
  by_cases haA : a = a1.author
  · subst haA
    have hfilter : [a1, b1, a2, b2].filter (fun m => m.author == a1.author) = [a1, a2] := by
      rw [List.filter_cons_of_pos (by simp),
        List.filter_cons_of_neg (by simp only [beq_iff_eq]; exact fun h => hAB h.symm),
        List.filter_cons_of_pos (by simp [hA]),
        List.filter_cons_of_neg
          (by simp only [beq_iff_eq]; exact fun h => hAB (hB.symm.trans h).symm),
        List.filter_nil]
    rw [hfilter, chainRebased, chainFrom, if_pos ⟨ha_seq, ha_prev, hA⟩]
    rfl
  · by_cases haB : a = b1.author
    · subst haB
      have hfilter : [a1, b1, a2, b2].filter (fun m => m.author == b1.author) = [b1, b2] := by
        rw [List.filter_cons_of_neg (by simp only [beq_iff_eq]; exact hAB),
          List.filter_cons_of_pos (by simp),
          List.filter_cons_of_neg
            (by simp only [beq_iff_eq]; exact fun h => hAB (hA.symm.trans h)),
          List.filter_cons_of_pos (by simp [hB]),
          List.filter_nil]
      rw [hfilter, chainRebased, chainFrom, if_pos ⟨hb_seq, hb_prev, hB⟩]
      rfl
    · have hfilter : [a1, b1, a2, b2].filter (fun m => m.author == a) = [] := by
        rw [List.filter_cons_of_neg (by simp only [beq_iff_eq]; exact fun h => haA h.symm),
          List.filter_cons_of_neg (by simp only [beq_iff_eq]; exact fun h => haB h.symm),
          List.filter_cons_of_neg
            (by simp only [beq_iff_eq]; exact fun h => haA (h.symm.trans hA)),
          List.filter_cons_of_neg
            (by simp only [beq_iff_eq]; exact fun h => haB (h.symm.trans hB)),
          List.filter_nil]
      rw [hfilter]
      rfl

/-- Witness for C2: interleaving the chains `A1, A2` and `B1, B2` of two
distinct authors validates successfully. -/
theorem claim_C2_multi_author_partition_witness :
    validateMultiAuthor (fun m => m.author)
      [⟨"A", 1, none⟩, ⟨"B", 1, none⟩, ⟨"A", 2, some "A"⟩, ⟨"B", 2, some "B"⟩] = true :=
  (claim_C2_multi_author_partition (fun m => m.author) ⟨"A", 1, none⟩ ⟨"A", 2, some "A"⟩
    ⟨"B", 1, none⟩ ⟨"B", 2, some "B"⟩ rfl rfl (by decide) rfl rfl rfl rfl).2

/-- Witness for C7: with all-passing signature checks `verifySignatures`
returns the ordered key list, with no chain information consulted at all. -/
theorem claim_C7_signature_only_witness :
    verify_messages extAllOk (HmacKey.Str "none") ["x", "y", "z"] =
      (none, some ["%key", "%key", "%key"]) :=
  claim_C7_signature_only extAllOk (HmacKey.Str "none") ["x", "y", "z"] none rfl
    (Iff.intro (fun _ _ _ => rfl) (fun _ => rfl)) (fun _ _ => rfl)
